import Mathlib

/-!
Verification of the fastDeploy deployment orchestrator.

This file shallowly embeds the parts of the code that the checked
properties talk about:

* `deploy/domain/model.py` — the `Step`/`Deployment`/`Service` data model,
  the reconciliation algorithm `DeploymentPydantic.process_step`, and
  `sync_services`;
* `deploy/auth.py` — `create_access_token`, `token_to_payload` and the
  three `*_from_token` resolvers (the JWT library `jose` is modelled by a
  token record carrying its claims, expiry, secret and algorithm, with
  decode checking secret/algorithm equality and `exp < now` for expiry,
  exactly the checks `jwt.decode` performs);
* `deploy/views.py` — `get_steps_from_last_deployment` and
  `get_steps_to_do_from_service`;
* `app/tasks.py` — `DeployTask.process_deploy_event` (the bounded retry
  loop) and `DeployTask.run_deploy` (the stdout read loop).

Timestamps are modelled as `Option Nat` (`None` = null), token times as
`Int` seconds.  Python dicts that are only compared for equality are
modelled as records/association lists.  The repository layer
(`deploy/domain/database.py`, `deploy/service_layer`) is not part of the
sources; where an operation needs it, the definition's doc comment says
`Modelled from the spec:` and follows the specification's description of
the abstract key-by-id store.
-/

namespace FastDeploy

/-- The four step states of the data model (`state` ∈
{pending, running, success, failure}); stored as strings in the code. -/
inductive StepState
  | pending
  | running
  | success
  | failure
deriving DecidableEq, Repr

/-- `deploy/domain/model.py` `Step`: name, optional started/finished
timestamps, state (default pending), message, and optional id /
deployment id (set once persisted). -/
structure Step where
  id : Option Nat := none
  name : String
  started : Option Nat := none
  finished : Option Nat := none
  state : StepState := StepState.pending
  message : String := ""
  deployment_id : Option Nat := none
deriving DecidableEq, Repr

/-- `deploy/domain/model.py` `Deployment`: owning service, origin/user
labels, optional started/finished timestamps, and a context mapping
(modelled as an association list, it is only passed through). -/
structure Deployment where
  id : Option Nat := none
  service_id : Nat
  origin : String := ""
  user : String := ""
  started : Option Nat := none
  finished : Option Nat := none
  context : List (String × String) := []
deriving DecidableEq, Repr

/-- The two state errors `process_step` can raise
(`ValueError("deployment has not started yet")` and
`ValueError("deployment has already finished")`). -/
inductive DeployError
  | deploymentNotStarted
  | deploymentAlreadyFinished
deriving DecidableEq, Repr

/-- Modelled from the spec: `repository.update_step` of the abstract
transactional key-by-id store — persisting an updated step replaces the
row with the same primary key. -/
def updateStep (steps : List Step) (s : Step) : List Step :=
  steps.map fun t => if t.id = s.id then s else t

/-- The first loop of `process_step` (model.py lines 290-294): search the
steps currently `running`, in creation order, for one whose name equals
the incoming step's name. -/
def runningMatch (steps : List Step) (incoming : Step) : Option Step :=
  (steps.filter fun s => s.state = StepState.running).find? fun s =>
    s.name = incoming.name

/-- model.py line 296: the sublist of steps currently `pending`, in
creation order. -/
def pendingSteps (steps : List Step) : List Step :=
  steps.filter fun s => s.state = StepState.pending

/-- The `known_step` computed by `process_step` (model.py lines 289-302):
a running step with the incoming name if one exists, else the first
pending step with the incoming name. -/
def knownStepOf (steps : List Step) (incoming : Step) : Option Step :=
  match runningMatch steps incoming with
  | some s => some s
  | none => (pendingSteps steps).find? fun s => s.name = incoming.name

/-- The promotion `process_step` performs (model.py lines 303-309): when
the incoming report matched a running step, the earliest pending step is
switched to `running` — unless there is no pending step or the incoming
state is `failure`. -/
def promotedStep (steps : List Step) (incoming : Step) : Option Step :=
  match runningMatch steps incoming with
  | some _ =>
    match pendingSteps steps with
    | next :: _ =>
      if incoming.state ≠ StepState.failure
        then some { next with state := StepState.running }
        else none
    | [] => none
  | none => none

/-- `DeploymentPydantic.process_step` (model.py lines 268-322), as a pure
function over the deployment, its persisted steps in creation order, the
incoming report and the current time.  It returns the persisted steps
after the call together with the created/updated step, or the state
error raised.  `repository.add_step` is modelled from the spec as
appending a fresh row to the store. -/
def processStep (d : Deployment) (steps : List Step) (incoming : Step)
    (now : Nat) : Except DeployError (List Step × Step) :=
  if d.started = none then Except.error DeployError.deploymentNotStarted
  else if d.finished ≠ none then
    Except.error DeployError.deploymentAlreadyFinished
  else
    let steps1 :=
      match runningMatch steps incoming with
      | some _ =>
        match pendingSteps steps with
        | next :: _ =>
          if incoming.state ≠ StepState.failure
            then updateStep steps { next with state := StepState.running }
            else steps
        | [] => steps
      | none => steps
    match knownStepOf steps incoming with
    | none =>
      let newStep :=
        { incoming with finished := some now, deployment_id := d.id }
      Except.ok (steps1 ++ [newStep], newStep)
    | some known =>
      let updated :=
        { known with
            started := incoming.started
            finished := some now
            state := incoming.state
            message := incoming.message }
      Except.ok (updateStep steps1 updated, updated)

/-- A value occurring in a token payload: the claim fields are strings
(`user`, `service` names) or integers (`deployment` id). -/
inductive ClaimValue
  | s (v : String)
  | n (v : Nat)
deriving DecidableEq, Repr

/-- A token payload as passed to `create_access_token` (auth.py): its
`type` discriminant plus the remaining claim fields.  The absolute
expiry the code adds under the `exp` key is kept in a separate field of
`Token`, so a payload here is exactly the caller-supplied claims. -/
structure Claims where
  type : String
  fields : List (String × ClaimValue)
deriving DecidableEq, Repr

/-- A signed JWT as produced by `jwt.encode(to_encode, secret_key,
algorithm)`: the claims, the absolute expiry, and the secret/algorithm
it was signed with. -/
structure Token where
  claims : Claims
  exp : Int
  secret : String
  alg : String
deriving DecidableEq, Repr

/-- The default expiry delta of `create_access_token`:
`timedelta(minutes=15)`, in seconds. -/
def defaultExpiresDelta : Int := 15 * 60

/-- `create_access_token` (auth.py lines 38-53).  `expires_delta` is an
optional duration in seconds; Python's `if expires_delta:` is falsy both
for `None` and for a zero `timedelta`, so both fall back to the
15-minute default. -/
def create_access_token (payload : Claims) (expires_delta : Option Int)
    (now : Int) (secret alg : String) : Token :=
  let expire : Int :=
    match expires_delta with
    | some d => if d ≠ 0 then now + d else now + defaultExpiresDelta
    | none => now + defaultExpiresDelta
  { claims := payload, exp := expire, secret := secret, alg := alg }

/-- The auth failures: `InvalidToken` for a bad signature/format or an
expired token (`jose.JWTError` / `ExpiredSignatureError`),
`WrongTokenType` for a type-discriminant mismatch (the
`ValueError("not a ... token")` raises), `PrincipalNotFound` when the
repository lookup misses. -/
inductive TokenError
  | invalidToken
  | wrongTokenType
  | principalNotFound
deriving DecidableEq, Repr

/-- `token_to_payload` (auth.py lines 56-67): `jwt.decode` verifies the
signature (secret and algorithm must match) and the expiry — `jose`
raises `ExpiredSignatureError` when `exp < now`. -/
def token_to_payload (token : Token) (secret alg : String) (now : Int) :
    Except TokenError Claims :=
  if token.secret = secret ∧ token.alg = alg then
    if token.exp < now then Except.error TokenError.invalidToken
    else Except.ok token.claims
  else Except.error TokenError.invalidToken

/-- The spec's `resolve(token, expected_type)`: the common prefix of
`user_from_token` / `service_from_token` / `deployment_from_token`
(auth.py lines 74-76, 89-91, 106-108) — decode the payload, then fail
with `WrongTokenType` unless its `type` equals the expected one. -/
def resolveToken (token : Token) (expectedType : String)
    (secret alg : String) (now : Int) : Except TokenError Claims :=
  match token_to_payload token secret alg now with
  | Except.error e => Except.error e
  | Except.ok payload =>
    if payload.type ≠ expectedType then Except.error TokenError.wrongTokenType
    else Except.ok payload

/-- `deploy/domain/model.py` `User`. -/
structure User where
  id : Option Nat := none
  name : String := ""
  password : String := ""
deriving DecidableEq, Repr

/-- `user_from_token` (auth.py lines 70-82): decode, check the type
discriminant, then look the user up by the `user` claim.  Modelled from
the spec: `uow.users.get(username)` is a name-keyed lookup failing with
`PrincipalNotFound` when the user no longer exists. -/
def user_from_token (token : Token) (users : List User)
    (secret alg : String) (now : Int) : Except TokenError User :=
  match token_to_payload token secret alg now with
  | Except.error e => Except.error e
  | Except.ok payload =>
    if payload.type ≠ "user" then Except.error TokenError.wrongTokenType
    else
      match payload.fields.lookup ("user") with
      | some (ClaimValue.s username) =>
        match users.find? fun u => u.name = username with
        | some u => Except.ok u
        | none => Except.error TokenError.principalNotFound
      | _ => Except.error TokenError.principalNotFound

/-- The opaque `data` dict of a `Service`: the declared pipeline steps
(`data.get("steps", [])`, absent modelled as `[]`), the deploy-script
path, and any further keys (value-compared, as Python `!=` on dicts). -/
structure ServiceData where
  steps : List Step := []
  deploy_script : Option String := none
  extra : List (String × Int) := []
deriving DecidableEq, Repr

/-- `deploy/domain/model.py` `Service`: id, unique name, and the opaque
configuration `data`. -/
structure Service where
  id : Option Nat := none
  name : String := ""
  data : ServiceData := {}
deriving DecidableEq, Repr

/-- `service_from_token` (auth.py lines 85-99): decode, check the type,
fail on a missing `service` claim (`ValueError("no service name")`),
then look the service up by name.  Modelled from the spec: the
repository lookup fails with `PrincipalNotFound` when the service no
longer exists. -/
def service_from_token (token : Token) (services : List Service)
    (secret alg : String) (now : Int) : Except TokenError Service :=
  match token_to_payload token secret alg now with
  | Except.error e => Except.error e
  | Except.ok payload =>
    if payload.type ≠ "service" then Except.error TokenError.wrongTokenType
    else
      match payload.fields.lookup ("service") with
      | some (ClaimValue.s servicename) =>
        match services.find? fun s => s.name = servicename with
        | some s => Except.ok s
        | none => Except.error TokenError.principalNotFound
      | _ => Except.error TokenError.invalidToken

/-- `deployment_from_token` (auth.py lines 102-116): decode, check the
type, fail on a missing `deployment` claim
(`ValueError("no deployment id")`), then look the deployment up by id.
Modelled from the spec: the repository lookup fails with
`PrincipalNotFound` when the deployment no longer exists. -/
def deployment_from_token (token : Token) (deployments : List Deployment)
    (secret alg : String) (now : Int) : Except TokenError Deployment :=
  match token_to_payload token secret alg now with
  | Except.error e => Except.error e
  | Except.ok payload =>
    if payload.type ≠ "deployment" then Except.error TokenError.wrongTokenType
    else
      match payload.fields.lookup ("deployment") with
      | some (ClaimValue.n deploymentId) =>
        match deployments.find? fun d => d.id = some deploymentId with
        | some d => Except.ok d
        | none => Except.error TokenError.principalNotFound
      | _ => Except.error TokenError.invalidToken

/-- Python's `{s.name: s for s in services}` name-keyed dict: a later
service with the same name overwrites an earlier one, so lookup returns
the last occurrence. -/
def nameLookup (services : List Service) (n : String) : Option Service :=
  services.reverse.find? fun s => s.name = n

/-- `sync_services` (model.py lines 336-362): walk the source list in
order; a source service whose name is in the target keeps the target's
row with the data overwritten when the data differs (and is skipped when
equal), a source service absent from the target is added unchanged; the
second list collects the target services whose name is absent from the
source. -/
def sync_services (source_services target_services : List Service) :
    List Service × List Service :=
  let updated_services := source_services.filterMap fun service =>
    match nameLookup target_services service.name with
    | some target_service =>
      if target_service.data ≠ service.data
        then some { target_service with data := service.data }
        else none
    | none => some service
  let deleted_services := target_services.filter fun service =>
    (nameLookup source_services service.name).isNone
  (updated_services, deleted_services)

/-- Modelled from the spec: the unit-of-work repositories used by
`deploy/views.py` (`deploy/service_layer` is not among the sources) —
`deployments.get_last_successful_deployment_id` keyed by service id, and
`steps.get_steps_from_deployment` returning a deployment's recorded
steps in creation order. -/
structure Repo where
  last_successful_deployment_id : Nat → Option Nat
  steps_from_deployment : Nat → List Step

/-- `get_steps_from_last_deployment` (views.py lines 33-44): empty when
the service has no id or no successful deployment exists, else the
recorded steps of the most recent successful deployment. -/
def get_steps_from_last_deployment (service : Service) (repo : Repo) :
    List Step :=
  match service.id with
  | none => []
  | some sid =>
    match repo.last_successful_deployment_id sid with
    | none => []
    | some did => repo.steps_from_deployment did

/-- The synthetic placeholder `model.Step(name="Unknown step")`. -/
def unknownStep : Step := { name := "Unknown step" }

/-- `get_steps_to_do_from_service` (views.py lines 47-66): with a unit
of work, return the last successful deployment's recorded steps when
that list is non-empty; otherwise the steps declared in the service's
configuration data; otherwise the single placeholder step. -/
def get_steps_to_do_from_service (service : Service) (uow : Option Repo) :
    List Step :=
  let fromLast :=
    match uow with
    | some repo => get_steps_from_last_deployment service repo
    | none => []
  if fromLast ≠ [] then fromLast
  else if service.data.steps = [] then [unknownStep]
  else service.data.steps

/-- One attempt of `client.post(self.steps_url, ...)`: either a response
with a status code, or `httpx.ConnectError`. -/
inductive PostOutcome
  | ok (status : Nat)
  | connectError
deriving DecidableEq, Repr

/-- The runtime error the retry loop can leak: reading `r` after the
`for` loop when no attempt ever assigned it. -/
inductive PyError
  | unboundLocalError
deriving DecidableEq, Repr

/-- The `for attempt in range(n)` loop of `process_deploy_event`
(tasks.py lines 50-55): try the post; on success bind `r` and break, on
`ConnectError` sleep and move to the next attempt.  Returns the number
of attempts made and the bound response, if any. -/
def postAttempts (outcome : Nat → PostOutcome) :
    Nat → Nat → Nat × Option Nat
  | _, 0 => (0, none)
  | i, n + 1 =>
    match outcome i with
    | PostOutcome.ok status => (1, some status)
    | PostOutcome.connectError =>
      let (a, r) := postAttempts outcome (i + 1) n
      (a + 1, r)

/-- `DeployTask.process_deploy_event` (tasks.py lines 46-56): run the
3-attempt retry loop, then unconditionally read `r` — when every attempt
raised `ConnectError`, `r` was never bound and the read raises
`UnboundLocalError`.  Returns the attempt count and either the delivered
response's status or the escaping error. -/
def process_deploy_event (outcome : Nat → PostOutcome) :
    Nat × Except PyError Nat :=
  let (attempts, r) := postAttempts outcome 0 3
  match r with
  | some status => (attempts, Except.ok status)
  | none => (attempts, Except.error PyError.unboundLocalError)

/-- One line of the child's standard output: either malformed JSON or a
parsed event, the latter carrying the post outcome of each delivery
attempt for it. -/
inductive OutLine
  | malformed (raw : String)
  | event (outcome : Nat → PostOutcome)

/-- The stdout read loop of `DeployTask.run_deploy` (tasks.py lines
68-81): malformed lines are skipped (`json.decoder.JSONDecodeError` is
the only exception caught), each parsed event is sent via
`process_deploy_event`, and any error it raises escapes the loop.
Returns the total number of send attempts and of delivered events. -/
def run_deploy : List OutLine → Except PyError (Nat × Nat)
  | [] => Except.ok (0, 0)
  | OutLine.malformed _ :: rest => run_deploy rest
  | OutLine.event outcome :: rest =>
    match process_deploy_event outcome with
    | (_, Except.error e) => Except.error e
    | (attempts, Except.ok _) =>
      match run_deploy rest with
      | Except.ok (a, d) => Except.ok (attempts + a, 1 + d)
      | Except.error e => Except.error e

/-- The repository of the C9 example: service 1's most recent successful
deployment is deployment 5, whose single recorded step finished with
state `success`. -/
def c9ExampleRepo : Repo :=
  { last_successful_deployment_id := fun _ => some 5
    steps_from_deployment := fun _ =>
      [{ id := some 7, name := "build", started := some 10,
         finished := some 20, state := StepState.success,
         deployment_id := some 5 }] }

/-- The service of the C9 example. -/
def c9ExampleService : Service := { id := some 1, name := "svc" }

end FastDeploy

namespace FastDeploy

/-- C4: `process_step` fails with `DeploymentNotStarted` whenever
`started` is null and — the checks being made in this order — with
`DeploymentAlreadyFinished` whenever `started` is set but `finished` is
not null, regardless of the incoming step; in both cases it returns an
error and therefore neither creates nor updates any step. -/
theorem c4_state_guards (d : Deployment) (steps : List Step)
    (incoming : Step) (now : Nat) :
    (d.started = none →
      processStep d steps incoming now =
        Except.error DeployError.deploymentNotStarted) ∧
    (d.started ≠ none → d.finished ≠ none →
      processStep d steps incoming now =
        Except.error DeployError.deploymentAlreadyFinished) := by
  constructor
  · intro h
    simp [processStep, h]
  · intro hs hf
    simp [processStep, hs, hf]

/-- Witness for C4 at a concrete deployment. -/
theorem c4_state_guards_witness :
    processStep { service_id := 1 } [] { name := "A" } 0 =
        Except.error DeployError.deploymentNotStarted ∧
      processStep { service_id := 1, started := some 0, finished := some 5 }
          [] { name := "A" } 7 =
        Except.error DeployError.deploymentAlreadyFinished :=
  ⟨(c4_state_guards { service_id := 1 } [] { name := "A" } 0).1 rfl,
   (c4_state_guards { service_id := 1, started := some 0, finished := some 5 }
       [] { name := "A" } 7).2 (by simp) (by simp)⟩

/-- C5 (amended): for every claims map and every non-zero ttl, a token
issued by `create_access_token` round-trips through `resolve` with the
matching expected type — returning the claims unchanged while
`now ≤ issue + ttl`, and failing with `InvalidToken` once
`now > issue + ttl`; with no ttl supplied the expiry is the default
15 minutes after issue, enforced the same way. -/
theorem c5_token_roundtrip_and_expiry (c : Claims) (ttl t0 now : Int)
    (secret alg : String) (h : ttl ≠ 0) :
    (now ≤ t0 + ttl →
      resolveToken (create_access_token c (some ttl) t0 secret alg)
        c.type secret alg now = Except.ok c) ∧
    (t0 + ttl < now →
      resolveToken (create_access_token c (some ttl) t0 secret alg)
        c.type secret alg now = Except.error TokenError.invalidToken) ∧
    (now ≤ t0 + defaultExpiresDelta →
      resolveToken (create_access_token c none t0 secret alg)
        c.type secret alg now = Except.ok c) ∧
    (t0 + defaultExpiresDelta < now →
      resolveToken (create_access_token c none t0 secret alg)
        c.type secret alg now = Except.error TokenError.invalidToken) := by
  refine ⟨fun h2 => ?_, fun h2 => ?_, fun h2 => ?_, fun h2 => ?_⟩
  · simp [resolveToken, token_to_payload, create_access_token, h,
      not_lt.mpr h2]
  · simp [resolveToken, token_to_payload, create_access_token, h, h2]
  · simp [resolveToken, token_to_payload, create_access_token,
      not_lt.mpr h2]
  · simp [resolveToken, token_to_payload, create_access_token, h2]

/-- Witness for C5 at concrete claims, ttl 600s, issue time 0. -/
theorem c5_token_roundtrip_and_expiry_witness :
    (resolveToken
        (create_access_token
          { type := "user", fields := [("user", ClaimValue.s "alice")] }
          (some 600) 0 "s3cret" "HS256")
        "user" "s3cret" "HS256" 599 =
      Except.ok
        { type := "user", fields := [("user", ClaimValue.s "alice")] }) ∧
    resolveToken
        (create_access_token
          { type := "user", fields := [("user", ClaimValue.s "alice")] }
          (some 600) 0 "s3cret" "HS256")
        "user" "s3cret" "HS256" 601 =
      Except.error TokenError.invalidToken :=
  ⟨(c5_token_roundtrip_and_expiry
      { type := "user", fields := [("user", ClaimValue.s "alice")] }
      600 0 599 ("s3cret") ("HS256") (by decide)).1 (by decide),
   (c5_token_roundtrip_and_expiry
      { type := "user", fields := [("user", ClaimValue.s "alice")] }
      600 0 601 ("s3cret") ("HS256") (by decide)).2.1 (by decide)⟩

/-- Counterexample to C5 as stated: with ttl = 0 (a legitimate
duration), Python's `if expires_delta:` is falsy, so the token silently
gets the 15-minute default expiry — at time 60, although
now > issue + ttl, resolution still succeeds instead of failing with
`InvalidToken`. -/
theorem c5_zero_ttl_counterexample :
    ((0 : Int) + 0 < 60) ∧
      resolveToken
          (create_access_token
            { type := "user", fields := [("user", ClaimValue.s "alice")] }
            (some 0) 0 "s3cret" "HS256")
          "user" "s3cret" "HS256" 60 =
        Except.ok
          { type := "user", fields := [("user", ClaimValue.s "alice")] } :=
  ⟨by decide, rfl⟩

/-- C6: a structurally valid, unexpired token whose claims carry a type
different from the expected one is rejected with `WrongTokenType` by
each of the three resolvers — for every repository whatsoever, i.e.
before any repository lookup — and `WrongTokenType` is a failure
distinct from `InvalidToken`. -/
theorem c6_wrong_token_type (token : Token) (secret alg : String)
    (now : Int) (hsecret : token.secret = secret) (halg : token.alg = alg)
    (hexp : ¬ token.exp < now) :
    (token.claims.type ≠ "user" → ∀ users : List User,
      user_from_token token users secret alg now =
        Except.error TokenError.wrongTokenType) ∧
    (token.claims.type ≠ "service" → ∀ services : List Service,
      service_from_token token services secret alg now =
        Except.error TokenError.wrongTokenType) ∧
    (token.claims.type ≠ "deployment" → ∀ deployments : List Deployment,
      deployment_from_token token deployments secret alg now =
        Except.error TokenError.wrongTokenType) ∧
    (∀ expectedType, token.claims.type ≠ expectedType →
      resolveToken token expectedType secret alg now =
        Except.error TokenError.wrongTokenType) ∧
    TokenError.wrongTokenType ≠ TokenError.invalidToken := by
  refine ⟨fun h users => ?_, fun h services => ?_, fun h deployments => ?_,
    fun expectedType h => ?_, by decide⟩
  · simp [user_from_token, token_to_payload, hsecret, halg, hexp, h]
  · simp [service_from_token, token_to_payload, hsecret, halg, hexp, h]
  · simp [deployment_from_token, token_to_payload, hsecret, halg, hexp, h]
  · simp [resolveToken, token_to_payload, hsecret, halg, hexp, h]

/-- Witness for C6: a deployment-typed token handed to the user and
service resolvers, and a user-typed token handed to the deployment
resolver, each over the empty repository. -/
theorem c6_wrong_token_type_witness :
    (user_from_token
        ⟨{ type := "deployment", fields := [("deployment", ClaimValue.n 1)] },
          100, "s3cret", "HS256"⟩ [] "s3cret" "HS256" 0 =
      Except.error TokenError.wrongTokenType) ∧
    (service_from_token
        ⟨{ type := "deployment", fields := [("deployment", ClaimValue.n 1)] },
          100, "s3cret", "HS256"⟩ [] "s3cret" "HS256" 0 =
      Except.error TokenError.wrongTokenType) ∧
    deployment_from_token
        ⟨{ type := "user", fields := [("user", ClaimValue.s "alice")] },
          100, "s3cret", "HS256"⟩ [] "s3cret" "HS256" 0 =
      Except.error TokenError.wrongTokenType :=
  ⟨(c6_wrong_token_type
      ⟨{ type := "deployment", fields := [("deployment", ClaimValue.n 1)] },
        100, "s3cret", "HS256"⟩ ("s3cret") ("HS256") 0 rfl rfl
      (by decide)).1 (by decide) [],
   (c6_wrong_token_type
      ⟨{ type := "deployment", fields := [("deployment", ClaimValue.n 1)] },
        100, "s3cret", "HS256"⟩ ("s3cret") ("HS256") 0 rfl rfl
      (by decide)).2.1 (by decide) [],
   (c6_wrong_token_type
      ⟨{ type := "user", fields := [("user", ClaimValue.s "alice")] },
        100, "s3cret", "HS256"⟩ ("s3cret") ("HS256") 0 rfl rfl
      (by decide)).2.2.1 (by decide) []⟩

/-- C8: two consecutive connection failures followed by a success give
exactly 3 send attempts and a delivered event; but on three consecutive
connection failures the loop makes 3 attempts, delivers nothing, and
then — the bug — reading the never-assigned response variable raises
`UnboundLocalError`, which escapes `process_deploy_event` and the stdout
read loop of `run_deploy` (only `JSONDecodeError` is caught there). -/
theorem c8_retry_exhaustion_raises :
    process_deploy_event
        (fun i => if i < 2 then PostOutcome.connectError
          else PostOutcome.ok 200) = (3, Except.ok 200) ∧
    process_deploy_event (fun _ => PostOutcome.connectError) =
      (3, Except.error PyError.unboundLocalError) ∧
    run_deploy [OutLine.event (fun _ => PostOutcome.connectError)] =
      Except.error PyError.unboundLocalError :=
  ⟨rfl, rfl, rfl⟩

/-- C9 (amended): with a unit of work, `get_steps_to_do_from_service`
returns the recorded steps of the service's most recent successful
deployment — in recorded order, with their recorded states, not reset to
pending — when such a deployment exists and recorded at least one step;
otherwise the steps declared in the service's configuration data;
otherwise the single synthetic placeholder step.  Exactly one of the
three sources is used. -/
theorem c9_three_step_sources (service : Service) (repo : Repo) :
    (get_steps_from_last_deployment service repo ≠ [] →
      get_steps_to_do_from_service service (some repo) =
        get_steps_from_last_deployment service repo) ∧
    (get_steps_from_last_deployment service repo = [] →
      service.data.steps ≠ [] →
      get_steps_to_do_from_service service (some repo) =
        service.data.steps) ∧
    (get_steps_from_last_deployment service repo = [] →
      service.data.steps = [] →
      get_steps_to_do_from_service service (some repo) = [unknownStep]) := by
  refine ⟨fun h => ?_, fun h h2 => ?_, fun h h2 => ?_⟩
  · simp [get_steps_to_do_from_service, h]
  · simp [get_steps_to_do_from_service, h, h2]
  · simp [get_steps_to_do_from_service, h, h2]

/-- Witness for C9 at the example service and repository. -/
theorem c9_three_step_sources_witness :
    get_steps_to_do_from_service c9ExampleService (some c9ExampleRepo) =
      [{ id := some 7, name := "build", started := some 10,
         finished := some 20, state := StepState.success,
         deployment_id := some 5 }] :=
  (c9_three_step_sources c9ExampleService c9ExampleRepo).1 (by decide)

/-- Counterexample to C9 as stated: the step recorded by the last
successful deployment is returned with its recorded `success` state —
it is not reset to `pending`. -/
theorem c9_recorded_state_not_reset :
    (get_steps_to_do_from_service c9ExampleService
        (some c9ExampleRepo)).map Step.state = [StepState.success] ∧
      StepState.success ≠ StepState.pending :=
  ⟨rfl, by decide⟩

/-- A step found by `runningMatch` is one of the persisted steps, is
running, and carries the incoming step's name. -/
theorem runningMatch_spec {steps : List Step} {incoming s : Step}
    (h : runningMatch steps incoming = some s) :
    s ∈ steps ∧ s.state = StepState.running ∧ s.name = incoming.name := by
  have hmem := List.mem_of_find?_eq_some h
  have hp := List.find?_some h
  rw [List.mem_filter] at hmem
  exact ⟨hmem.1, by simpa using hmem.2, by simpa using hp⟩

/-- The head of `pendingSteps` is one of the persisted steps and is
pending. -/
theorem pendingSteps_head_spec {steps : List Step} {next : Step}
    {rest : List Step} (h : pendingSteps steps = next :: rest) :
    next ∈ steps ∧ next.state = StepState.pending := by
  have hmem : next ∈ pendingSteps steps := by
    rw [h]; exact List.mem_cons_self _ _
  rw [pendingSteps, List.mem_filter] at hmem
  exact ⟨hmem.1, by simpa using hmem.2⟩

/-- The `known_step` is one of the persisted steps, carries the incoming
name, and was running or pending. -/
theorem knownStepOf_spec {steps : List Step} {incoming ks : Step}
    (h : knownStepOf steps incoming = some ks) :
    ks ∈ steps ∧ ks.name = incoming.name ∧
      (ks.state = StepState.running ∨ ks.state = StepState.pending) := by
  unfold knownStepOf at h
  cases hrm : runningMatch steps incoming with
  | some s =>
    rw [hrm] at h
    have hs : s = ks := Option.some.inj h
    subst hs
    obtain ⟨hm, hst, hn⟩ := runningMatch_spec hrm
    exact ⟨hm, hn, Or.inl hst⟩
  | none =>
    rw [hrm] at h
    have h' : (pendingSteps steps).find?
        (fun s => s.name = incoming.name) = some ks := h
    have hmem := List.mem_of_find?_eq_some h'
    have hp := List.find?_some h'
    rw [pendingSteps, List.mem_filter] at hmem
    exact ⟨hmem.1, by simpa using hp, Or.inr (by simpa using hmem.2)⟩

/-- A promoted step exists exactly as the earliest pending step switched
to running, and only when a running step matched and the incoming state
is not failure. -/
theorem promotedStep_some_spec {steps : List Step} {incoming p : Step}
    (h : promotedStep steps incoming = some p) :
    ∃ r next rest, runningMatch steps incoming = some r ∧
      pendingSteps steps = next :: rest ∧
      incoming.state ≠ StepState.failure ∧
      p = { next with state := StepState.running } := by
  unfold promotedStep at h
  cases hrm : runningMatch steps incoming with
  | none => simp [hrm] at h
  | some r =>
    cases hps : pendingSteps steps with
    | nil => simp [hrm, hps] at h
    | cons next rest =>
      by_cases hf : incoming.state = StepState.failure
      · simp [hrm, hps, hf] at h
      · simp only [hrm, hps, if_pos hf] at h
        exact ⟨r, next, rest, rfl, rfl, hf, (Option.some.inj h).symm⟩

/-- Unfolding of `process_step` in the known-step case: the (possibly)
promoted pending step is persisted, then the matched step is overwritten
and persisted, and the updated matched step is returned. -/
theorem processStep_known_eq (d : Deployment) (steps : List Step)
    (incoming : Step) (now : Nat) (ks : Step) (t0 : Nat)
    (hstart : d.started = some t0) (hfin : d.finished = none)
    (hk : knownStepOf steps incoming = some ks) :
    processStep d steps incoming now =
      Except.ok
        (updateStep
          (match promotedStep steps incoming with
           | some p => updateStep steps p
           | none => steps)
          { ks with
              started := incoming.started
              finished := some now
              state := incoming.state
              message := incoming.message },
         { ks with
             started := incoming.started
             finished := some now
             state := incoming.state
             message := incoming.message }) := by
  unfold processStep promotedStep
  rw [hstart, hfin, hk]
  cases hrm : runningMatch steps incoming with
  | none => simp
  | some r =>
    cases hps : pendingSteps steps with
    | nil => simp
    | cons next rest =>
      by_cases hf : incoming.state = StepState.failure
      · simp [hf]
      · simp [hf]

/-- `processStep_known_eq`, specialised to the case without promotion:
only the matched step is overwritten and persisted. -/
theorem processStep_known_none_eq (d : Deployment) (steps : List Step)
    (incoming : Step) (now : Nat) (ks : Step) (t0 : Nat)
    (hstart : d.started = some t0) (hfin : d.finished = none)
    (hk : knownStepOf steps incoming = some ks)
    (hpm : promotedStep steps incoming = none) :
    processStep d steps incoming now =
      Except.ok
        (updateStep steps
          { ks with
              started := incoming.started
              finished := some now
              state := incoming.state
              message := incoming.message },
         { ks with
             started := incoming.started
             finished := some now
             state := incoming.state
             message := incoming.message }) := by
  rw [processStep_known_eq d steps incoming now ks t0 hstart hfin hk, hpm]

/-- `processStep_known_eq`, specialised to the case with promotion: the
promoted pending step is persisted, then the matched step is overwritten
and persisted. -/
theorem processStep_known_some_eq (d : Deployment) (steps : List Step)
    (incoming : Step) (now : Nat) (ks p : Step) (t0 : Nat)
    (hstart : d.started = some t0) (hfin : d.finished = none)
    (hk : knownStepOf steps incoming = some ks)
    (hpm : promotedStep steps incoming = some p) :
    processStep d steps incoming now =
      Except.ok
        (updateStep (updateStep steps p)
          { ks with
              started := incoming.started
              finished := some now
              state := incoming.state
              message := incoming.message },
         { ks with
             started := incoming.started
             finished := some now
             state := incoming.state
             message := incoming.message }) := by
  rw [processStep_known_eq d steps incoming now ks t0 hstart hfin hk, hpm]

/-- C3: on a started, unfinished deployment, a report whose name matches
no persisted running or pending step creates a new step row carrying the
report's name and state, attached to the deployment and stamped
`finished = now`, appends it to the persisted steps, and returns it. -/
theorem c3_unknown_step_created (d : Deployment) (steps : List Step)
    (incoming : Step) (now t0 : Nat)
    (hstart : d.started = some t0) (hfin : d.finished = none)
    (hunknown : ∀ s ∈ steps,
      s.state = StepState.running ∨ s.state = StepState.pending →
      s.name ≠ incoming.name) :
    processStep d steps incoming now =
      Except.ok
        (steps ++
          [{ incoming with finished := some now, deployment_id := d.id }],
         { incoming with finished := some now, deployment_id := d.id }) := by
  have hrm : runningMatch steps incoming = none := by
    apply List.find?_eq_none.mpr
    intro x hx
    rw [List.mem_filter] at hx
    simpa using hunknown x hx.1 (Or.inl (by simpa using hx.2))
  have hkn : knownStepOf steps incoming = none := by
    unfold knownStepOf
    rw [hrm]
    apply List.find?_eq_none.mpr
    intro x hx
    rw [pendingSteps, List.mem_filter] at hx
    simpa using hunknown x hx.1 (Or.inr (by simpa using hx.2))
  unfold processStep
  rw [hstart, hfin, hrm, hkn]
  simp

/-- Witness for C3: a deployment with no existing steps and a report
`{name: X, state: running}` yields a new step named X with `finished`
set and state running. -/
theorem c3_unknown_step_created_witness :
    processStep { service_id := 1, id := some 4, started := some 0 } []
        { name := "X", state := StepState.running } 9 =
      Except.ok
        ([{ name := "X", state := StepState.running, finished := some 9,
            deployment_id := some 4 }],
         { name := "X", state := StepState.running, finished := some 9,
           deployment_id := some 4 }) :=
  c3_unknown_step_created { service_id := 1, id := some 4, started := some 0 }
    [] { name := "X", state := StepState.running } 9 0 rfl rfl
    (fun s hs => absurd hs (List.not_mem_nil s))

/-- C1: on a started, unfinished deployment whose persisted steps are
`[A:running, B:pending, C:pending]` (distinct rows), a report carrying
A's name with state success updates A to success with `finished = now`,
`started` and `message` taken from the report, promotes the earliest
pending step B to running, leaves C unchanged, and returns updated A. -/
theorem c1_success_report_advances (d : Deployment) (A B C incoming : Step)
    (now t0 : Nat)
    (hstart : d.started = some t0) (hfin : d.finished = none)
    (hA : A.state = StepState.running) (hB : B.state = StepState.pending)
    (hC : C.state = StepState.pending)
    (hname : A.name = incoming.name)
    (hsuccess : incoming.state = StepState.success)
    (hAB : A.id ≠ B.id) (hAC : A.id ≠ C.id) (hBC : B.id ≠ C.id) :
    processStep d [A, B, C] incoming now =
      Except.ok
        ([{ A with
              started := incoming.started
              finished := some now
              state := StepState.success
              message := incoming.message },
          { B with state := StepState.running }, C],
         { A with
             started := incoming.started
             finished := some now
             state := StepState.success
             message := incoming.message }) := by
  have hrm : runningMatch [A, B, C] incoming = some A := by
    unfold runningMatch
    simp [hA, hB, hC, hname]
  have hk : knownStepOf [A, B, C] incoming = some A := by
    unfold knownStepOf
    rw [hrm]
  have hps : pendingSteps [A, B, C] = [B, C] := by
    unfold pendingSteps
    simp [hA, hB, hC]
  have hpm : promotedStep [A, B, C] incoming =
      some { B with state := StepState.running } := by
    unfold promotedStep
    rw [hrm, hps]
    simp [hsuccess]
  rw [processStep_known_some_eq d [A, B, C] incoming now A
    { B with state := StepState.running } t0 hstart hfin hk hpm, hsuccess]
  simp [updateStep, hAB, hAC, Ne.symm hAB, Ne.symm hAC, Ne.symm hBC]

/-- Witness for C1 at a concrete three-step deployment. -/
theorem c1_success_report_advances_witness :
    processStep { service_id := 1, started := some 0 }
        [{ id := some 1, name := "A", state := StepState.running },
         { id := some 2, name := "B" }, { id := some 3, name := "C" }]
        { name := "A", state := StepState.success, message := "done",
          started := some 2 } 9 =
      Except.ok
        ([{ id := some 1, name := "A", started := some 2,
            finished := some 9, state := StepState.success,
            message := "done" },
          { id := some 2, name := "B", state := StepState.running },
          { id := some 3, name := "C" }],
         { id := some 1, name := "A", started := some 2, finished := some 9,
           state := StepState.success, message := "done" }) :=
  c1_success_report_advances { service_id := 1, started := some 0 }
    { id := some 1, name := "A", state := StepState.running }
    { id := some 2, name := "B" } { id := some 3, name := "C" }
    { name := "A", state := StepState.success, message := "done",
      started := some 2 } 9 0
    rfl rfl rfl rfl rfl rfl rfl (by decide) (by decide) (by decide)

/-- C2: pending steps are promoted to running only when a running step
closes with a non-failure state — when the report matches a running step
but carries state failure, the matched step is overwritten and persisted
and nothing else changes (no promotion); and when the report matches
only a pending (never-running) step, that pending step is updated
directly and, again, nothing else changes. -/
theorem c2_promotion_only_on_running_close :
    (∀ (d : Deployment) (steps : List Step) (incoming ks : Step)
        (now t0 : Nat), d.started = some t0 → d.finished = none →
      runningMatch steps incoming = some ks →
      incoming.state = StepState.failure →
      processStep d steps incoming now =
        Except.ok
          (updateStep steps
            { ks with
                started := incoming.started
                finished := some now
                state := StepState.failure
                message := incoming.message },
           { ks with
               started := incoming.started
               finished := some now
               state := StepState.failure
               message := incoming.message })) ∧
    (∀ (d : Deployment) (steps : List Step) (incoming ks : Step)
        (now t0 : Nat), d.started = some t0 → d.finished = none →
      runningMatch steps incoming = none →
      knownStepOf steps incoming = some ks →
      processStep d steps incoming now =
        Except.ok
          (updateStep steps
            { ks with
                started := incoming.started
                finished := some now
                state := incoming.state
                message := incoming.message },
           { ks with
               started := incoming.started
               finished := some now
               state := incoming.state
               message := incoming.message })) := by
  constructor
  · intro d steps incoming ks now t0 hstart hfin hrm hfail
    have hk : knownStepOf steps incoming = some ks := by
      unfold knownStepOf
      rw [hrm]
    have hpm : promotedStep steps incoming = none := by
      cases hpm' : promotedStep steps incoming with
      | none => rfl
      | some p =>
        obtain ⟨r, next, rest, _, _, hne, _⟩ := promotedStep_some_spec hpm'
        exact absurd hfail hne
    rw [processStep_known_none_eq d steps incoming now ks t0 hstart hfin hk
      hpm, hfail]
  · intro d steps incoming ks now t0 hstart hfin hrm hk
    have hpm : promotedStep steps incoming = none := by
      cases hpm' : promotedStep steps incoming with
      | none => rfl
      | some p =>
        obtain ⟨r, _, _, hr, _, _, _⟩ := promotedStep_some_spec hpm'
        rw [hrm] at hr
        cases hr
    rw [processStep_known_none_eq d steps incoming now ks t0 hstart hfin hk
      hpm]

/-- Witness for C2: a failure report against `[A:running]` yields A →
failure with nothing promoted, and a success report matching only the
pending step P of `[P:pending, Q:pending]` updates P directly and leaves
Q pending. -/
theorem c2_promotion_only_on_running_close_witness :
    (processStep { service_id := 1, started := some 0 }
        [{ id := some 1, name := "A", state := StepState.running }]
        { name := "A", state := StepState.failure, message := "boom" } 9 =
      Except.ok
        ([{ id := some 1, name := "A", finished := some 9,
            state := StepState.failure, message := "boom" }],
         { id := some 1, name := "A", finished := some 9,
           state := StepState.failure, message := "boom" })) ∧
    processStep { service_id := 1, started := some 0 }
        [{ id := some 2, name := "P" }, { id := some 3, name := "Q" }]
        { name := "P", state := StepState.success } 9 =
      Except.ok
        ([{ id := some 2, name := "P", finished := some 9,
            state := StepState.success },
          { id := some 3, name := "Q" }],
         { id := some 2, name := "P", finished := some 9,
           state := StepState.success }) :=
  ⟨c2_promotion_only_on_running_close.1 { service_id := 1, started := some 0 }
      [{ id := some 1, name := "A", state := StepState.running }]
      { name := "A", state := StepState.failure, message := "boom" }
      { id := some 1, name := "A", state := StepState.running } 9 0
      rfl rfl rfl rfl,
   c2_promotion_only_on_running_close.2 { service_id := 1, started := some 0 }
      [{ id := some 2, name := "P" }, { id := some 3, name := "Q" }]
      { name := "P", state := StepState.success }
      { id := some 2, name := "P" } 9 0 rfl rfl rfl rfl⟩

/-- C10: whenever `process_step` matches the report to a persisted step
(`known_step`), the result overwrites exactly that row's `started`,
`finished`, `state` and `message` — its `id`, `name` and `deployment_id`
are untouched — and every other persisted row is unchanged except for
the at most one promoted pending step, whose only change is
`state := running`.  The returned step is the updated matched row. -/
theorem c10_matched_step_frame (d : Deployment) (steps : List Step)
    (incoming : Step) (now : Nat) (ks : Step) (t0 : Nat)
    (hstart : d.started = some t0) (hfin : d.finished = none)
    (hk : knownStepOf steps incoming = some ks)
    (hids : (steps.map Step.id).Nodup) :
    processStep d steps incoming now =
      Except.ok
        (steps.map fun t =>
          if t.id = ks.id then
            { t with
                started := incoming.started
                finished := some now
                state := incoming.state
                message := incoming.message }
          else
            match promotedStep steps incoming with
            | some p =>
              if t.id = p.id then { t with state := StepState.running }
              else t
            | none => t,
         { ks with
             started := incoming.started
             finished := some now
             state := incoming.state
             message := incoming.message }) := by
  have hinj : ∀ a ∈ steps, ∀ b ∈ steps, a.id = b.id → a = b :=
    fun a ha b hb => List.inj_on_of_nodup_map hids ha hb
  have hksmem := (knownStepOf_spec hk).1
  cases hpm : promotedStep steps incoming with
  | none =>
    rw [processStep_known_none_eq d steps incoming now ks t0 hstart hfin hk
      hpm]
    congr 2
    unfold updateStep
    apply List.map_congr_left
    intro t ht
    by_cases hid : t.id = ks.id
    · have ht_eq : t = ks := hinj t ht ks hksmem hid
      subst ht_eq
      simp
    · simp [hid]
  | some p =>
    obtain ⟨r, next, rest, hrm, hps, hnf, hp_eq⟩ := promotedStep_some_spec hpm
    have hk' := hk
    unfold knownStepOf at hk'
    rw [hrm] at hk'
    have hks_eq : r = ks := Option.some.inj hk'
    obtain ⟨hnextmem, hnextpending⟩ := pendingSteps_head_spec hps
    have hksrunning : ks.state = StepState.running := by
      obtain ⟨_, hst, _⟩ := runningMatch_spec hrm
      rw [hks_eq] at hst
      exact hst
    have hksnext_ne : ks ≠ next := by
      intro he
      rw [he, hnextpending] at hksrunning
      exact absurd hksrunning (by decide)
    have hidne : ks.id ≠ next.id :=
      fun hi => hksnext_ne (hinj ks hksmem next hnextmem hi)
    rw [processStep_known_some_eq d steps incoming now ks p t0 hstart hfin hk
      hpm]
    subst hp_eq
    congr 2
    unfold updateStep
    rw [List.map_map]
    apply List.map_congr_left
    intro t ht
    simp only [Function.comp]
    by_cases hid : t.id = ks.id
    · have ht_eq : t = ks := hinj t ht ks hksmem hid
      subst ht_eq
      simp [hidne]
    · by_cases hid2 : t.id = next.id
      · have ht_eq : t = next := hinj t ht next hnextmem hid2
        subst ht_eq
        simp [hid]
      · simp [hid, hid2]

/-- Witness for C10: matching the single running step of a one-step
deployment. -/
theorem c10_matched_step_frame_witness :
    processStep { service_id := 1, started := some 0 }
        [{ id := some 1, name := "A", state := StepState.running }]
        { name := "A", state := StepState.success, message := "ok" } 5 =
      Except.ok
        ([{ id := some 1, name := "A", finished := some 5,
            state := StepState.success, message := "ok" }],
         { id := some 1, name := "A", finished := some 5,
           state := StepState.success, message := "ok" }) :=
  c10_matched_step_frame { service_id := 1, started := some 0 }
    [{ id := some 1, name := "A", state := StepState.running }]
    { name := "A", state := StepState.success, message := "ok" } 5
    { id := some 1, name := "A", state := StepState.running } 0
    rfl rfl rfl (by simp)

/-- `nameLookup` misses exactly when no service in the list bears the
name. -/
theorem nameLookup_eq_none_iff (services : List Service) (n : String) :
    nameLookup services n = none ↔ ∀ s ∈ services, s.name ≠ n := by
  simp [nameLookup, List.find?_eq_none]

/-- A `nameLookup` hit is a member of the list bearing the name. -/
theorem nameLookup_spec {services : List Service} {n : String}
    {t : Service} (h : nameLookup services n = some t) :
    t ∈ services ∧ t.name = n := by
  have hmem := List.mem_of_find?_eq_some h
  have hp := List.find?_some h
  exact ⟨List.mem_reverse.mp hmem, by simpa using hp⟩

/-- With pairwise distinct names, looking a member's name up returns
exactly that member. -/
theorem nameLookup_of_mem {services : List Service} {t : Service}
    (hnd : (services.map Service.name).Nodup) (ht : t ∈ services) :
    nameLookup services t.name = some t := by
  cases hfind : nameLookup services t.name with
  | none =>
    exact absurd rfl ((nameLookup_eq_none_iff services t.name).mp hfind t ht)
  | some u =>
    obtain ⟨hu_mem, hu_name⟩ := nameLookup_spec hfind
    rw [List.inj_on_of_nodup_map hnd hu_mem ht hu_name]

/-- The first component of `sync_services`, unfolded. -/
theorem sync_services_fst (source target : List Service) :
    (sync_services source target).1 = source.filterMap fun service =>
      match nameLookup target service.name with
      | some target_service =>
        if target_service.data ≠ service.data
          then some { target_service with data := service.data }
          else none
      | none => some service := rfl

/-- The second component of `sync_services`, unfolded. -/
theorem sync_services_snd (source target : List Service) :
    (sync_services source target).2 = target.filter fun service =>
      (nameLookup source service.name).isNone := rfl

/-- C7: `sync_services` returns as its first list every source service
absent by name from the target (an addition, unchanged) and, for every
source service whose name matches a target service with different data,
that target service with its id kept and its data overwritten (an
update) — and nothing else; its second list holds exactly the target
services absent by name from the source (deletions).  At the concrete
examples: syncing `[{name: a, data: x=1}]` against
`[{name: a, data: x=2}]` yields exactly the updated service with the
original id and data `x=1` and no deletions, and syncing `[]` against
`[{name: a}]` yields no updates and one deletion. -/
theorem c7_sync_services :
    (∀ source target : List Service,
      (∀ s ∈ source, (∀ t ∈ target, t.name ≠ s.name) →
        s ∈ (sync_services source target).1) ∧
      ((target.map Service.name).Nodup →
        ∀ s ∈ source, ∀ t ∈ target, t.name = s.name → t.data ≠ s.data →
          { t with data := s.data } ∈ (sync_services source target).1) ∧
      (∀ u ∈ (sync_services source target).1,
        (u ∈ source ∧ ∀ t ∈ target, t.name ≠ u.name) ∨
        ∃ s ∈ source, ∃ t ∈ target,
          t.name = s.name ∧ t.data ≠ s.data ∧
            u = { t with data := s.data }) ∧
      (∀ t, t ∈ (sync_services source target).2 ↔
        t ∈ target ∧ ∀ s ∈ source, s.name ≠ t.name)) ∧
    sync_services [{ name := "a", data := { extra := [("x", 1)] } }]
        [{ id := some 1, name := "a", data := { extra := [("x", 2)] } }] =
      ([{ id := some 1, name := "a", data := { extra := [("x", 1)] } }],
       []) ∧
    sync_services [] [{ id := some 1, name := "a" }] =
      ([], [{ id := some 1, name := "a" }]) := by
  refine ⟨fun source target => ⟨?_, ?_, ?_, ?_⟩, by decide, by decide⟩
  · intro s hs hnone
    rw [sync_services_fst]
    apply List.mem_filterMap.mpr
    refine ⟨s, hs, ?_⟩
    rw [(nameLookup_eq_none_iff target s.name).mpr hnone]
  · intro hnd s hs t ht hname hdata
    rw [sync_services_fst]
    apply List.mem_filterMap.mpr
    refine ⟨s, hs, ?_⟩
    have hlk : nameLookup target s.name = some t := by
      rw [← hname]
      exact nameLookup_of_mem hnd ht
    rw [hlk]
    simp [hdata]
  · intro u hu
    rw [sync_services_fst] at hu
    obtain ⟨s, hs, hfs⟩ := List.mem_filterMap.mp hu
    cases hlk : nameLookup target s.name with
    | none =>
      rw [hlk] at hfs
      have hsu : s = u := Option.some.inj hfs
      subst hsu
      exact Or.inl ⟨hs, fun t ht =>
        (nameLookup_eq_none_iff target s.name).mp hlk t ht⟩
    | some t =>
      rw [hlk] at hfs
      by_cases hd : t.data = s.data
      · simp [hd] at hfs
      · simp [hd] at hfs
        obtain ⟨ht_mem, ht_name⟩ := nameLookup_spec hlk
        exact Or.inr ⟨s, hs, t, ht_mem, ht_name, hd, hfs.symm⟩
  · intro t
    rw [sync_services_snd, List.mem_filter]
    constructor
    · rintro ⟨ht, hfilter⟩
      refine ⟨ht, ?_⟩
      have hnone : nameLookup source t.name = none :=
        Option.isNone_iff_eq_none.mp hfilter
      exact (nameLookup_eq_none_iff source t.name).mp hnone
    · rintro ⟨ht, hnone⟩
      refine ⟨ht, ?_⟩
      rw [(nameLookup_eq_none_iff source t.name).mpr hnone]
      rfl

/-- Witness for C7: an addition on an empty target, and the update of
the claim's example. -/
theorem c7_sync_services_witness :
    ({ name := "b" } : Service) ∈ (sync_services [{ name := "b" }] []).1 ∧
    ({ id := some 1, name := "a",
       data := { extra := [("x", 1)] } } : Service) ∈
      (sync_services [{ name := "a", data := { extra := [("x", 1)] } }]
        [{ id := some 1, name := "a", data := { extra := [("x", 2)] } }]).1 :=
  ⟨(c7_sync_services.1 [{ name := "b" }] []).1 { name := "b" } (by simp)
      (fun t ht => absurd ht (List.not_mem_nil t)),
   (c7_sync_services.1 [{ name := "a", data := { extra := [("x", 1)] } }]
        [{ id := some 1, name := "a",
           data := { extra := [("x", 2)] } }]).2.1 (by simp)
      { name := "a", data := { extra := [("x", 1)] } } (by simp)
      { id := some 1, name := "a", data := { extra := [("x", 2)] } }
      (by simp) rfl (by decide)⟩

end FastDeploy
